import Mathlib

/-!
A shallow embedding of the renet remote-connection core
(src/remote_connection.rs), together with models of the collaborating
modules imported by that file (sequence buffer, packet schema, fragment
reassembly, timers, channel capability, security service).  The
collaborators' sources are not part of the tree, so they are modelled
from the specification, as marked on each definition.

Conventions: sequence numbers are Nat reduced modulo 2^16 where the
source uses u16 wrapping arithmetic; time instants are Int "ticks";
f64 metrics are modelled as rationals; fallible Rust code returns
Except or Option; a Rust unwrap on an Err value (a panic) is modelled
by a dedicated outcome constructor.
-/

namespace Renet

/-- Ack metadata carried by packets: most recent received sequence plus
the 32-bit redundant-ack mask (packet.rs, modelled from the spec). -/
structure AckData where
  ack : Nat
  ack_bits : Nat
deriving DecidableEq

/-- Modelled from the spec: the Normal packet variant of packet.rs. -/
structure Normal where
  sequence : Nat
  ack_data : AckData
  payload : List Nat
deriving DecidableEq

/-- Modelled from the spec: the Fragment packet variant of packet.rs. -/
structure Fragment where
  sequence : Nat
  ack_data : AckData
  fragment_id : Nat
  num_fragments : Nat
  payload : List Nat
deriving DecidableEq

/-- Modelled from the spec: the Heartbeat packet variant of packet.rs. -/
structure HeartBeat where
  ack_data : AckData
deriving DecidableEq

/-- Modelled from the spec: the Connection control frame of packet.rs;
only the error field is acted on by the core. -/
structure Connection where
  error : Option Nat
deriving DecidableEq

/-- Modelled from the spec: the tagged union of packet variants. -/
inductive Packet where
  | normal (n : Normal)
  | fragment (f : Fragment)
  | heartbeat (h : HeartBeat)
  | connection (c : Connection)
deriving DecidableEq

/-- Modelled from the spec: the error taxonomy of error.rs (section 7).
ExceededMaxFragments and the reassembly rejections are folded into
FragmentError, as the taxonomy groups them. -/
inductive RenetError where
  | SerializationFailed
  | MaximumPacketSizeExceeded
  | FragmentError
  | SecurityError
  | ConnectionError (code : Nat)
  | IOError
deriving DecidableEq

/-- Modelled from the spec: a timer stores a duration and a deadline;
reset sets deadline to now plus duration, is_finished checks
now at-or-past deadline (section 4.9). -/
structure Timer where
  duration : Int
  deadline : Int
deriving DecidableEq

def Timer.reset (t : Timer) (now : Int) : Timer :=
  { t with deadline := now + t.duration }

def Timer.is_finished (t : Timer) (now : Int) : Bool :=
  t.deadline ≤ now

/-- SentPacket record of remote_connection.rs: creation time, acked
flag, recorded size in bytes. -/
structure SentPacket where
  time : Int
  ack : Bool
  size_bytes : Nat
deriving DecidableEq

def SentPacket.new (time : Int) (size_bytes : Nat) : SentPacket :=
  { time := time, size_bytes := size_bytes, ack := false }

/-- ReceivedPacket record of remote_connection.rs. -/
structure ReceivedPacket where
  time : Int
  size_bytes : Nat
deriving DecidableEq

def ReceivedPacket.new (time : Int) (size_bytes : Nat) : ReceivedPacket :=
  { time := time, size_bytes := size_bytes }

/-- NetworkInfo of remote_connection.rs; the f64 fields are modelled as
rationals. -/
structure NetworkInfo where
  rtt : ℚ
  sent_bandwidth_kbps : ℚ
  received_bandwidth_kbps : ℚ
  packet_loss : ℚ
deriving DecidableEq

def NetworkInfo.default : NetworkInfo :=
  { rtt := 0, sent_bandwidth_kbps := 0, received_bandwidth_kbps := 0, packet_loss := 0 }

/-- Modelled from the spec: fragment configuration of
reassembly_fragment.rs (section 6). -/
structure FragmentConfig where
  fragment_above : Nat
  fragment_size : Nat
  max_fragments : Nat
  reassembly_buffer_size : Nat
deriving DecidableEq

/-- ConnectionConfig of remote_connection.rs; durations are ticks, the
smoothing factor is a rational. -/
structure ConnectionConfig where
  max_packet_size : Nat
  sent_packets_buffer_size : Nat
  received_packets_buffer_size : Nat
  measure_smoothing_factor : ℚ
  timeout_duration : Int
  heartbeat_time : Int
  fragment_config : FragmentConfig
deriving DecidableEq

/-- The wrapping-sequence "more recent than" test: a is newer than b iff
(a - b) mod 2^16 lies in (0, 2^15) (spec section 3). -/
def seqNewer (a b : Nat) : Bool :=
  let d := (a % 65536 + 65536 - b % 65536) % 65536
  decide (0 < d) && decide (d < 32768)

/-- Modelled from the spec: the sliding sequence buffer of
sequence_buffer.rs (section 4.1).  A ring of N slots, each empty or
holding a stored sequence and a value; slot index is seq mod N; the
head seq is the most recent insert. -/
structure SequenceBuffer (α : Type) where
  entries : List (Option (Nat × α))
  seq : Nat
deriving DecidableEq

namespace SequenceBuffer

def with_capacity (α : Type) (n : Nat) : SequenceBuffer α :=
  { entries := List.replicate n none, seq := 0 }

def get {α : Type} (b : SequenceBuffer α) (s : Nat) : Option α :=
  let n := b.entries.length
  let s := s % 65536
  match b.entries[s % n]? with
  | some (some (t, v)) => if t = s then some v else none
  | _ => none

/-- get_mut followed by an in-place update, modelled functionally. -/
def modify {α : Type} (b : SequenceBuffer α) (s : Nat) (f : α → α) : SequenceBuffer α :=
  let n := b.entries.length
  let s := s % 65536
  match b.entries[s % n]? with
  | some (some (t, v)) =>
    if t = s then { b with entries := b.entries.set (s % n) (some (s, f v)) } else b
  | _ => b

/-- Modelled from the spec: insert drops sequences older than
head - N, slides the window forward (clearing the slots of the skipped
sequences) when the new sequence is newer than the head, then writes
the slot (section 4.1). -/
def insert {α : Type} (b : SequenceBuffer α) (s : Nat) (v : α) : SequenceBuffer α :=
  let n := b.entries.length
  let s := s % 65536
  if seqNewer ((b.seq + 65536 - n % 65536) % 65536) s then b
  else
    let b :=
      if seqNewer s b.seq then
        let d := (s + 65536 - b.seq % 65536) % 65536
        { entries :=
            (List.range d).foldl (fun es k => es.set (((b.seq + 1 + k) % 65536) % n) none)
              b.entries,
          seq := s }
      else b
    { b with entries := b.entries.set (s % n) (some (s, v)) }

def remove {α : Type} (b : SequenceBuffer α) (s : Nat) : SequenceBuffer α :=
  let n := b.entries.length
  let s := s % 65536
  match b.entries[s % n]? with
  | some (some (t, _)) =>
    if t = s then { b with entries := b.entries.set (s % n) none } else b
  | _ => b

/-- Modelled from the spec: ack = head, bit i of the mask set iff
head - i is present (section 4.1). -/
def ack_bits {α : Type} (b : SequenceBuffer α) : Nat × Nat :=
  let mask := (List.range 32).foldl
    (fun acc i => if (b.get ((b.seq + 65536 - i) % 65536)).isSome then acc + 2 ^ i else acc) 0
  (b.seq, mask)

end SequenceBuffer

/-- Modelled from the spec: the instrumented state of one channel
capability (section 4.4).  The core treats channels as opaque; the
model records the events the capability receives: queued outbound
messages, inbound messages delivered via process_messages, and the
log of sequences passed to process_ack. -/
structure ChannelState where
  sendQueue : List (List Nat)
  received : List (List Nat)
  ackLog : List Nat
deriving DecidableEq

namespace ChannelState

def process_ack (ch : ChannelState) (s : Nat) : ChannelState :=
  { ch with ackLog := ch.ackLog ++ [s] }

def process_messages (ch : ChannelState) (msgs : List (List Nat)) : ChannelState :=
  { ch with received := ch.received ++ msgs }

def send_message (ch : ChannelState) (m : List Nat) : ChannelState :=
  { ch with sendQueue := ch.sendQueue ++ [m] }

def receive_message (ch : ChannelState) : Option (List Nat) × ChannelState :=
  match ch.received with
  | [] => (none, ch)
  | m :: rest => (some m, { ch with received := rest })

/-- Modelled from the spec: get_messages_to_send returns the queued
messages when there are any, else none (section 4.4); the policy of
which messages fit the budget belongs to the channel and is modelled
as returning the whole queue. -/
def get_messages_to_send (ch : ChannelState) (budget : Nat) (seq : Nat) :
    Option (List (List Nat)) × ChannelState :=
  let _ := budget
  let _ := seq
  if ch.sendQueue.isEmpty then (none, ch)
  else (some ch.sendQueue, { ch with sendQueue := [] })

end ChannelState

/-- Modelled from the spec: ChannelPacketData of channel.rs, the
per-channel entry of a Normal payload (section 6). -/
structure ChannelPacketData where
  channel_id : Nat
  messages : List (List Nat)
deriving DecidableEq

/-- Modelled from the spec: ReassemblyFragment entry of
reassembly_fragment.rs (section 3): totals, received mask, and the
per-fragment byte slots. -/
structure ReassemblyFragment where
  num_fragments_total : Nat
  num_fragments_received : Nat
  received_mask : Nat
  buffer : List (List Nat)
deriving DecidableEq

/-- The security service capability: wrap and unwrap may fail
(protocol.rs, modelled from the spec, section 6). -/
structure SecurityService where
  ss_wrap : List Nat → Option (List Nat)
  ss_unwrap : List Nat → Option (List Nat)

/-- The serialization codec (bincode in the source); the spec leaves
the byte format abstract (section 6), so it is a parameter: any codec
that round-trips the variants.  Encoding may fail, mirroring the
fallible bincode serialize calls. -/
structure Codec where
  encodePacket : Packet → Option (List Nat)
  decodePacket : List Nat → Option Packet
  encodeChannelPackets : List ChannelPacketData → Option (List Nat)
  decodeChannelPackets : List Nat → Option (List ChannelPacketData)

/-- The connection state of remote_connection.rs.  The HashMap of
channels is modelled as an association list; the security service and
codec are passed to the operations as parameters. -/
structure RemoteConnection where
  sequence : Nat
  addr : Nat
  channels : List (Nat × ChannelState)
  heartbeat_timer : Timer
  timeout_timer : Timer
  config : ConnectionConfig
  reassembly_buffer : SequenceBuffer ReassemblyFragment
  sent_buffer : SequenceBuffer SentPacket
  received_buffer : SequenceBuffer ReceivedPacket
  acks : List Nat
  network_info : NetworkInfo
deriving DecidableEq

/-- HashMap::get on the channel map: first entry with the given id. -/
def findChannel (chs : List (Nat × ChannelState)) (cid : Nat) : Option ChannelState :=
  match chs with
  | [] => none
  | (i, ch) :: rest => if i = cid then some ch else findChannel rest cid

/-- HashMap::get_mut followed by a mutation: update the first entry
with the given id. -/
def updateChannel (chs : List (Nat × ChannelState)) (cid : Nat) (f : ChannelState → ChannelState) :
    List (Nat × ChannelState) :=
  match chs with
  | [] => []
  | (i, ch) :: rest =>
    if i = cid then (i, f ch) :: rest else (i, ch) :: updateChannel rest cid f

namespace RemoteConnection

/-- new: remote_connection.rs lines 106-128 (timers start with deadline
now plus duration, per the spec timer model). -/
def new (now : Int) (addr : Nat) (config : ConnectionConfig) : RemoteConnection :=
  { sequence := 0
    addr := addr
    channels := []
    heartbeat_timer := Timer.reset ⟨config.heartbeat_time, 0⟩ now
    timeout_timer := Timer.reset ⟨config.timeout_duration, 0⟩ now
    config := config
    reassembly_buffer := SequenceBuffer.with_capacity _ config.fragment_config.reassembly_buffer_size
    sent_buffer := SequenceBuffer.with_capacity _ config.sent_packets_buffer_size
    received_buffer := SequenceBuffer.with_capacity _ config.received_packets_buffer_size
    acks := []
    network_info := NetworkInfo.default }

def add_channel (st : RemoteConnection) (cid : Nat) (ch : ChannelState) : RemoteConnection :=
  { st with channels := st.channels ++ [(cid, ch)] }

def has_timed_out (st : RemoteConnection) (now : Int) : Bool :=
  st.timeout_timer.is_finished now

/-- send_message, lines 142-148: unknown channel is a programmer error
(expect, i.e. panic), modelled as none. -/
def send_message (st : RemoteConnection) (cid : Nat) (message : List Nat) :
    Option RemoteConnection :=
  match findChannel st.channels cid with
  | none => none
  | some _ =>
    some { st with channels := updateChannel st.channels cid (fun ch => ch.send_message message) }

/-- receive_message, lines 356-369: unknown channel logs and returns
none without touching the state. -/
def receive_message (st : RemoteConnection) (cid : Nat) :
    Option (List Nat) × RemoteConnection :=
  match findChannel st.channels cid with
  | none => (none, st)
  | some ch =>
    let (m, ch') := ch.receive_message
    (m, { st with channels := updateChannel st.channels cid (fun _ => ch') })

/-- One iteration of the ack loop of update_acket_packets, lines
291-312: if bit i of ack_bits is set, look up sequence ack - i in the
sent buffer; a present, not-yet-acked entry is pushed onto acks,
marked acked, and contributes an RTT sample. -/
def ack_step (now : Int) (ack ack_bits : Nat) (st : RemoteConnection) (i : Nat) :
    RemoteConnection :=
  if (ack_bits >>> i) % 2 = 1 then
    let s := (ack % 65536 + 65536 - i % 65536) % 65536
    match st.sent_buffer.get s with
    | none => st
    | some sp =>
      if sp.ack then st
      else
        let rtt : ℚ := ((now - sp.time : Int) : ℚ)
        let ni := st.network_info
        let ni :=
          if (ni.rtt = 0 ∧ 0 < rtt) ∨ |ni.rtt - rtt| < 1 / 100000 then { ni with rtt := rtt }
          else { ni with rtt := ni.rtt + (rtt - ni.rtt) * st.config.measure_smoothing_factor }
        { st with
          acks := st.acks ++ [s]
          sent_buffer := st.sent_buffer.modify s (fun p => { p with ack := true })
          network_info := ni }
  else st

/-- update_acket_packets, lines 288-313. -/
def update_acket_packets (st : RemoteConnection) (now : Int) (ack ack_bits : Nat) :
    RemoteConnection :=
  (List.range 32).foldl (ack_step now ack ack_bits) st

/-- The acks drain of process_payload, lines 202-206: every channel
receives process_ack for each pending sequence, in list order; the
pending list is emptied.  Also returns the dispatched list. -/
def drain_acks (st : RemoteConnection) : RemoteConnection × List Nat :=
  ({ st with
      channels := st.channels.map (fun p => (p.1, st.acks.foldl ChannelState.process_ack p.2))
      acks := [] },
    st.acks)

/-- Modelled from the spec: handle_fragment of reassembly_fragment.rs
(section 4.3).  Looks up or creates the reassembly entry, rejects
inconsistent fragments, ignores duplicates, stores the fragment bytes,
and returns the concatenated payload once all fragments arrived. -/
def handle_fragment (rb : SequenceBuffer ReassemblyFragment) (f : Fragment)
    (fcfg : FragmentConfig) :
    Except RenetError (SequenceBuffer ReassemblyFragment × Option (List Nat)) :=
  if f.num_fragments > fcfg.max_fragments then .error .FragmentError
  else
    let rb :=
      if (rb.get f.sequence).isSome then rb
      else rb.insert f.sequence
        ⟨f.num_fragments, 0, 0, List.replicate f.num_fragments []⟩
    match rb.get f.sequence with
    | none => .error .FragmentError
    | some entry =>
      if f.num_fragments ≠ entry.num_fragments_total then .error .FragmentError
      else if entry.num_fragments_total ≤ f.fragment_id then .error .FragmentError
      else if entry.received_mask.testBit f.fragment_id then .ok (rb, none)
      else if f.fragment_id + 1 < entry.num_fragments_total ∧
          f.payload.length ≠ fcfg.fragment_size then .error .FragmentError
      else if f.fragment_id + 1 = entry.num_fragments_total ∧
          fcfg.fragment_size < f.payload.length then .error .FragmentError
      else
        let entry :=
          { entry with
            num_fragments_received := entry.num_fragments_received + 1
            received_mask := entry.received_mask ||| 2 ^ f.fragment_id
            buffer := entry.buffer.set f.fragment_id f.payload }
        if entry.num_fragments_received = entry.num_fragments_total then
          .ok (rb.remove f.sequence, some entry.buffer.flatten)
        else
          .ok (rb.modify f.sequence (fun _ => entry), none)

/-- The packet-variant dispatch of process_payload, lines 165-200.
The parameter payload is the unwrapped datagram; note that in the
Fragment arm the source's identifier payload still refers to this
unwrapped datagram (the inner fragment payload is f.payload), so the
accumulated size is the unwrapped datagram length. -/
def process_packet (st : RemoteConnection) (now : Int) (payload : List Nat) (pkt : Packet) :
    RemoteConnection × Except RenetError (Option (List Nat)) :=
  match pkt with
  | .normal n =>
    let st := { st with
      received_buffer := st.received_buffer.insert n.sequence
        (ReceivedPacket.new now n.payload.length) }
    (st.update_acket_packets now n.ack_data.ack n.ack_data.ack_bits, .ok (some n.payload))
  | .fragment f =>
    let st :=
      { st with
        received_buffer :=
          if (st.received_buffer.get f.sequence).isSome then
            st.received_buffer.modify f.sequence
              (fun r => { r with size_bytes := r.size_bytes + payload.length })
          else
            st.received_buffer.insert f.sequence (ReceivedPacket.new now payload.length) }
    let st := st.update_acket_packets now f.ack_data.ack f.ack_data.ack_bits
    match handle_fragment st.reassembly_buffer f st.config.fragment_config with
    | .error e => (st, .error e)
    | .ok (rb, pay) => ({ st with reassembly_buffer := rb }, .ok pay)
  | .heartbeat h =>
    (st.update_acket_packets now h.ack_data.ack h.ack_data.ack_bits, .ok none)
  | .connection c =>
    match c.error with
    | some e => (st, .error (.ConnectionError e))
    | none => (st, .ok none)

/-- The channel dispatch loop of process_payload, lines 222-234:
entries naming an unregistered channel id are logged and skipped, the
others are handed to process_messages of their channel. -/
def dispatch_channel_packets (chs : List (Nat × ChannelState)) (cps : List ChannelPacketData) :
    List (Nat × ChannelState) :=
  cps.foldl
    (fun chs cpd =>
      match findChannel chs cpd.channel_id with
      | none => chs
      | some _ => updateChannel chs cpd.channel_id (fun ch => ch.process_messages cpd.messages))
    chs

/-- The tail of process_payload, lines 202-236: drain the pending acks
to every channel, then, when the dispatch produced a payload, decode
it as channel packets and route them. -/
def finish_payload (codec : Codec) (st : RemoteConnection) (pay : Option (List Nat)) :
    RemoteConnection × Except RenetError Unit :=
  let st := (drain_acks st).1
  match pay with
  | none => (st, .ok ())
  | some pay =>
    match codec.decodeChannelPackets pay with
    | none => (st, .error .SerializationFailed)
    | some cps =>
      ({ st with channels := dispatch_channel_packets st.channels cps }, .ok ())

/-- process_payload, lines 161-237.  Returns the updated state (Rust
mutates through a mutable borrow, so state changes made before an
early error return persist) together with the result. -/
def process_payload (codec : Codec) (ss : SecurityService) (now : Int)
    (st : RemoteConnection) (raw : List Nat) :
    RemoteConnection × Except RenetError Unit :=
  let st := { st with timeout_timer := st.timeout_timer.reset now }
  match ss.ss_unwrap raw with
  | none => (st, .error .SecurityError)
  | some payload =>
    match codec.decodePacket payload with
    | none => (st, .error .SerializationFailed)
    | some pkt =>
      match st.process_packet now payload pkt with
      | (st, .error e) => (st, .error e)
      | (st, .ok pay) => finish_payload codec st pay

end RemoteConnection

/-- Modelled from the spec: build_fragments of reassembly_fragment.rs
(section 4.3): split into ceil(len / fragment_size) chunks sharing the
sequence, failing when the count exceeds max_fragments; each chunk is
framed as a Fragment packet and encoded. -/
def build_fragments (codec : Codec) (payload : List Nat) (sequence : Nat) (ad : AckData)
    (fcfg : FragmentConfig) : Except RenetError (List (List Nat)) :=
  let num := (payload.length + fcfg.fragment_size - 1) / fcfg.fragment_size
  if num > fcfg.max_fragments then .error .FragmentError
  else
    (List.range num).foldr
      (fun i acc =>
        match codec.encodePacket
            (.fragment ⟨sequence, ad, i, num,
              (payload.drop (i * fcfg.fragment_size)).take fcfg.fragment_size⟩), acc with
        | some b, .ok bs => .ok (b :: bs)
        | none, _ => .error .SerializationFailed
        | _, .error e => .error e)
      (.ok [])

/-- The outcome of an operation whose Rust body may panic via unwrap
or expect: success, a returned error, or a panic. -/
inductive SendResult where
  | ok
  | err (e : RenetError)
  | panicked
deriving DecidableEq

namespace RemoteConnection

/-- generate_packets, lines 248-286: reject oversize payloads before
touching any state; otherwise allocate the next sequence (u16
wrapping), record the SentPacket, and frame either fragments or one
Normal packet. -/
def generate_packets (codec : Codec) (now : Int) (st : RemoteConnection) (payload : List Nat) :
    RemoteConnection × Except RenetError (List (List Nat)) :=
  if payload.length > st.config.max_packet_size then
    (st, .error .MaximumPacketSizeExceeded)
  else
    let sequence := st.sequence
    let st := { st with sequence := (st.sequence + 1) % 65536 }
    let ab := st.received_buffer.ack_bits
    let st := { st with
      sent_buffer := st.sent_buffer.insert sequence (SentPacket.new now payload.length) }
    if payload.length > st.config.fragment_config.fragment_above then
      match build_fragments codec payload sequence ⟨ab.1, ab.2⟩ st.config.fragment_config with
      | .error e => (st, .error e)
      | .ok frags => (st, .ok frags)
    else
      match codec.encodePacket (.normal ⟨sequence, ⟨ab.1, ab.2⟩, payload⟩) with
      | none => (st, .error .SerializationFailed)
      | some bytes => (st, .ok [bytes])

/-- send_payload, lines 239-246: generate the packets, then for each
one wrap (the source unwraps the wrap result, so a wrap failure is a
panic) and send (a transport failure is an IO error). -/
def send_payload (codec : Codec) (ss : SecurityService) (sock : List Nat → Bool) (now : Int)
    (st : RemoteConnection) (payload : List Nat) : RemoteConnection × SendResult :=
  match st.generate_packets codec now payload with
  | (st, .error e) => (st, .err e)
  | (st, .ok pkts) =>
    (st,
      pkts.foldl
        (fun acc p =>
          match acc with
          | .ok =>
            match ss.ss_wrap p with
            | none => .panicked
            | some w => if sock w then .ok else .err .IOError
          | other => other)
        .ok)

/-- build_heartbeat_packet, lines 151-159. -/
def build_heartbeat_packet (codec : Codec) (st : RemoteConnection) :
    Except RenetError (List Nat) :=
  let ab := st.received_buffer.ack_bits
  match codec.encodePacket (.heartbeat ⟨⟨ab.1, ab.2⟩⟩) with
  | none => .error .SerializationFailed
  | some b => .ok b

/-- get_packet, lines 328-354: drain the pending messages of each channel
into ChannelPacketData entries and serialize them, or none when every
channel is empty. -/
def get_packet (codec : Codec) (st : RemoteConnection) :
    RemoteConnection × Except RenetError (Option (List Nat)) :=
  let seq := st.sequence
  let step := fun (acc : List (Nat × ChannelState) × List ChannelPacketData)
      (p : Nat × ChannelState) =>
    let r := p.2.get_messages_to_send st.config.max_packet_size seq
    (acc.1 ++ [(p.1, r.2)],
      match r.1 with
      | some ms => acc.2 ++ [⟨p.1, ms⟩]
      | none => acc.2)
  let r := st.channels.foldl step ([], [])
  let st := { st with channels := r.1 }
  if r.2.isEmpty then (st, .ok none)
  else
    match codec.encodeChannelPackets r.2 with
    | none => (st, .error .SerializationFailed)
    | some bytes => (st, .ok (some bytes))

/-- send_packets, lines 315-326: a data payload resets the heartbeat
timer and goes through send_payload (whose error the source unwraps,
i.e. panics on); otherwise an expired heartbeat timer is reset and a
heartbeat is built, wrapped and sent, each step unwrapped (panicking)
on failure. -/
def send_packets (codec : Codec) (ss : SecurityService) (sock : List Nat → Bool) (now : Int)
    (st : RemoteConnection) : RemoteConnection × SendResult :=
  match st.get_packet codec with
  | (st, .error e) => (st, .err e)
  | (st, .ok (some payload)) =>
    let st := { st with heartbeat_timer := st.heartbeat_timer.reset now }
    match st.send_payload codec ss sock now payload with
    | (st, .ok) => (st, .ok)
    | (st, _) => (st, .panicked)
  | (st, .ok none) =>
    if st.heartbeat_timer.is_finished now then
      let st := { st with heartbeat_timer := st.heartbeat_timer.reset now }
      match st.build_heartbeat_packet codec with
      | .error _ => (st, .panicked)
      | .ok pkt =>
        match ss.ss_wrap pkt with
        | none => (st, .panicked)
        | some w => if sock w then (st, .ok) else (st, .panicked)
    else (st, .ok)

/-- One iteration of the sampling loop of update_sent_bandwidth, lines
384-401: skip absent and zero-size entries, else accumulate the
dropped count, the byte total, and the min and max send times. -/
def sent_sample_step (st : RemoteConnection) (base : Nat) (acc : Nat × Nat × Int × Int)
    (i : Nat) : Nat × Nat × Int × Int :=
  match st.sent_buffer.get ((base + i % 65536) % 65536) with
  | none => acc
  | some sp =>
    if sp.size_bytes = 0 then acc
    else
      ((if sp.ack then acc.1 else acc.1 + 1),
        acc.2.1 + sp.size_bytes,
        min acc.2.2.1 sp.time,
        max acc.2.2.2 sp.time)

/-- The sampling loop of update_sent_bandwidth, lines 377-401: over the
window of sent_packets_buffer_size / 4 sequences starting at
head - sample_size. -/
def sent_bandwidth_sample (st : RemoteConnection) (now : Int) : Nat × Nat × Int × Int :=
  let sample_size := st.config.sent_packets_buffer_size / 4
  let base := (st.sent_buffer.seq + 65536 - sample_size % 65536) % 65536
  (List.range sample_size).foldl (sent_sample_step st base) (0, 0, now, now - 100)

/-- update_sent_bandwidth, lines 376-426; the f64 metrics are modelled
as rationals. -/
def update_sent_bandwidth (st : RemoteConnection) (now : Int) : RemoteConnection :=
  let sample_size := st.config.sent_packets_buffer_size / 4
  let r := st.sent_bandwidth_sample now
  let packets_dropped := r.1
  let bytes_sent := r.2.1
  let start_time := r.2.2.1
  let end_time := r.2.2.2
  let packet_loss : ℚ := (packets_dropped : ℚ) / (sample_size : ℚ) * 100
  let ni := st.network_info
  let ni :=
    if 1 / 10000 < |ni.packet_loss - packet_loss| then
      { ni with packet_loss :=
          ni.packet_loss + (packet_loss - ni.packet_loss) * st.config.measure_smoothing_factor }
    else { ni with packet_loss := packet_loss }
  if end_time ≤ start_time then { st with network_info := ni }
  else
    let kbps : ℚ := (bytes_sent : ℚ) / ((end_time - start_time : Int) : ℚ) * 8 / 1000
    let ni :=
      if 1 / 10000 < |ni.sent_bandwidth_kbps - kbps| then
        { ni with sent_bandwidth_kbps :=
            ni.sent_bandwidth_kbps +
              (kbps - ni.sent_bandwidth_kbps) * st.config.measure_smoothing_factor }
      else { ni with sent_bandwidth_kbps := kbps }
    { st with network_info := ni }

/-- update_received_bandwidth, lines 432-471; note the window base is
head - sample_size + 1, one past the sent-side base. -/
def update_received_bandwidth (st : RemoteConnection) (now : Int) : RemoteConnection :=
  let sample_size := st.config.received_packets_buffer_size / 4
  let base := ((st.received_buffer.seq + 65536 - sample_size % 65536) % 65536 + 1) % 65536
  let r := (List.range sample_size).foldl
    (fun (acc : Nat × Int × Int) i =>
      match st.received_buffer.get ((base + i % 65536) % 65536) with
      | none => acc
      | some rp => (acc.1 + rp.size_bytes, min acc.2.1 rp.time, max acc.2.2 rp.time))
    (0, now, now - 100)
  let bytes_received := r.1
  let start_time := r.2.1
  let end_time := r.2.2
  if end_time ≤ start_time then st
  else
    let kbps : ℚ := (bytes_received : ℚ) / ((end_time - start_time : Int) : ℚ) * 8 / 1000
    let ni := st.network_info
    let ni :=
      if 1 / 10000 < |ni.received_bandwidth_kbps - kbps| then
        { ni with received_bandwidth_kbps :=
            ni.received_bandwidth_kbps +
              (kbps - ni.received_bandwidth_kbps) * st.config.measure_smoothing_factor }
      else { ni with received_bandwidth_kbps := kbps }
    { st with network_info := ni }

/-- update_network_info, lines 371-374. -/
def update_network_info (st : RemoteConnection) (now : Int) : RemoteConnection :=
  (st.update_sent_bandwidth now).update_received_bandwidth now

end RemoteConnection

/-- The ack handling for one inbound datagram, as process_payload performs
it: update_acket_packets on the carried ack data, then the drain of the
pending list to the channels; the dispatched sequences are appended to
the accumulated dispatch log. -/
def ack_run_step (now : Int) (acc : RemoteConnection × List Nat) (ad : AckData) :
    RemoteConnection × List Nat :=
  let r := (acc.1.update_acket_packets now ad.ack ad.ack_bits).drain_acks
  (r.1, acc.2 ++ r.2)

/-- A run of inbound ack handling over a list of datagrams' ack data,
with the sequences dispatched over the whole run concatenated. -/
def process_ack_run (now : Int) (st : RemoteConnection) (ads : List AckData) :
    RemoteConnection × List Nat :=
  ads.foldl (ack_run_step now) (st, [])

/-- A run of consecutive generate_packets calls on a fixed payload,
recording the sequence number each call allocates. -/
def alloc_run (codec : Codec) (now : Int) (payload : List Nat) :
    Nat → RemoteConnection → RemoteConnection × List Nat
  | 0, st => (st, [])
  | k + 1, st =>
    let s := st.sequence
    let st := (st.generate_packets codec now payload).1
    let r := alloc_run codec now payload k st
    (r.1, s :: r.2)

/-- The dropped-packet count over the window the specification
describes for update_sent_bandwidth: the last sample_size sequences
ending at and including the sent head, counting every present entry
whose acked flag is false. -/
def spec_sent_packets_dropped (st : RemoteConnection) : Nat :=
  let sample_size := st.config.sent_packets_buffer_size / 4
  ((List.range sample_size).map (fun i => (st.sent_buffer.seq + 65536 - i % 65536) % 65536)).countP
    (fun s =>
      match st.sent_buffer.get s with
      | some sp => !sp.ack
      | none => false)

/-- Whether the window entry at offset i from the given base counts as
dropped for the source's sampling loop: present, of nonzero recorded
size, and not acked. -/
def sent_dropped_pred (st : RemoteConnection) (base i : Nat) : Bool :=
  match st.sent_buffer.get ((base + i % 65536) % 65536) with
  | some sp => !sp.ack && decide (sp.size_bytes ≠ 0)
  | none => false

/-- The dropped-packet count the source actually computes, in
description form: over the sample_size sequences starting at
head - sample_size (the head itself excluded), count the present
entries with nonzero recorded size and acked false. -/
def code_sent_packets_dropped (st : RemoteConnection) : Nat :=
  let sample_size := st.config.sent_packets_buffer_size / 4
  let base := (st.sent_buffer.seq + 65536 - sample_size % 65536) % 65536
  (List.range sample_size).countP (sent_dropped_pred st base)

/-- A channel with nothing queued, delivered, or acked. -/
def emptyChannel : ChannelState := ⟨[], [], []⟩

/-- A security service whose wrap and unwrap both succeed and pass the
bytes through unchanged. -/
def idSecurity : SecurityService := ⟨fun p => some p, fun p => some p⟩

/-- A codec whose encoders always succeed with a one-byte result and
whose decoders always fail; enough for send-side scenarios. -/
def stubCodec : Codec :=
  { encodePacket := fun _ => some [0]
    decodePacket := fun _ => none
    encodeChannelPackets := fun _ => some [0]
    decodeChannelPackets := fun _ => some [] }

/-- A small fragment configuration: fragment above 1024 bytes, 512-byte
fragments, at most 8 of them. -/
def smallFragCfg : FragmentConfig := ⟨1024, 512, 8, 8⟩

/-- A small connection configuration with 16-slot buffers. -/
def smallCfg : ConnectionConfig := ⟨16384, 16, 16, 1 / 20, 5, 1, smallFragCfg⟩

namespace SequenceBuffer

theorem get_modify_self {α : Type} (b : SequenceBuffer α) (s : Nat) (f : α → α) (v : α)
    (h : b.get s = some v) : (b.modify s f).get s = some (f v) := by
  unfold get at h
  unfold modify get
  simp only at h ⊢
  rcases hc : b.entries[s % 65536 % b.entries.length]? with _ | o
  · rw [hc] at h
    exact absurd h (by simp)
  · rw [hc] at h
    rcases o with _ | ⟨t, w⟩
    · exact absurd h (by simp)
    · simp only at h
      by_cases ht : t = s % 65536
      · rw [if_pos ht] at h
        have hlt : s % 65536 % b.entries.length < b.entries.length :=
          (List.getElem?_eq_some.mp hc).1
        have hv : w = v := Option.some_injective _ h
        subst hv
        simp only [hc, if_pos ht, List.length_set, List.getElem?_set_self hlt, if_pos rfl]
        simp
      · rw [if_neg ht] at h
        exact absurd h (by simp)

theorem get_modify_ne {α : Type} (b : SequenceBuffer α) (s' s : Nat) (f : α → α)
    (hne : s' % 65536 ≠ s % 65536) : (b.modify s' f).get s = b.get s := by
  unfold modify get
  simp only
  rcases hc : b.entries[s' % 65536 % b.entries.length]? with _ | o
  · rfl
  · rcases o with _ | ⟨t, w⟩
    · rfl
    · by_cases ht : t = s' % 65536
      · simp only [if_pos ht, List.length_set]
        by_cases hj : s' % 65536 % b.entries.length = s % 65536 % b.entries.length
        · have hlt : s' % 65536 % b.entries.length < b.entries.length :=
            (List.getElem?_eq_some.mp hc).1
          rw [← hj, List.getElem?_set_self hlt, hc]
          simp only [ht]
          rw [if_neg hne, if_neg (ht ▸ hne)]
        · rw [List.getElem?_set_ne hj]
      · simp only [if_neg ht]

end SequenceBuffer

namespace RemoteConnection

theorem ack_step_preserves (now : Int) (a b : Nat) (st : RemoteConnection) (i : Nat) :
    (ack_step now a b st i).received_buffer = st.received_buffer ∧
    (ack_step now a b st i).timeout_timer = st.timeout_timer ∧
    (ack_step now a b st i).heartbeat_timer = st.heartbeat_timer ∧
    (ack_step now a b st i).channels = st.channels ∧
    (ack_step now a b st i).config = st.config ∧
    (ack_step now a b st i).sequence = st.sequence ∧
    (ack_step now a b st i).reassembly_buffer = st.reassembly_buffer := by
  unfold ack_step
  dsimp only
  repeat' split
  all_goals exact ⟨rfl, rfl, rfl, rfl, rfl, rfl, rfl⟩

theorem foldl_ack_step_preserves (now : Int) (a b : Nat) (l : List Nat)
    (st : RemoteConnection) :
    ((l.foldl (ack_step now a b) st)).received_buffer = st.received_buffer ∧
    ((l.foldl (ack_step now a b) st)).timeout_timer = st.timeout_timer ∧
    ((l.foldl (ack_step now a b) st)).heartbeat_timer = st.heartbeat_timer ∧
    ((l.foldl (ack_step now a b) st)).channels = st.channels ∧
    ((l.foldl (ack_step now a b) st)).config = st.config ∧
    ((l.foldl (ack_step now a b) st)).sequence = st.sequence ∧
    ((l.foldl (ack_step now a b) st)).reassembly_buffer = st.reassembly_buffer := by
  induction l generalizing st with
  | nil => exact ⟨rfl, rfl, rfl, rfl, rfl, rfl, rfl⟩
  | cons i l ih =>
    simp only [List.foldl_cons]
    have h1 := ack_step_preserves now a b st i
    have h2 := ih (ack_step now a b st i)
    exact ⟨h2.1.trans h1.1, h2.2.1.trans h1.2.1, h2.2.2.1.trans h1.2.2.1,
      h2.2.2.2.1.trans h1.2.2.2.1, h2.2.2.2.2.1.trans h1.2.2.2.2.1,
      h2.2.2.2.2.2.1.trans h1.2.2.2.2.2.1, h2.2.2.2.2.2.2.trans h1.2.2.2.2.2.2⟩

theorem update_acket_packets_preserves (st : RemoteConnection) (now : Int) (a b : Nat) :
    (st.update_acket_packets now a b).received_buffer = st.received_buffer ∧
    (st.update_acket_packets now a b).timeout_timer = st.timeout_timer ∧
    (st.update_acket_packets now a b).heartbeat_timer = st.heartbeat_timer ∧
    (st.update_acket_packets now a b).channels = st.channels ∧
    (st.update_acket_packets now a b).config = st.config ∧
    (st.update_acket_packets now a b).sequence = st.sequence ∧
    (st.update_acket_packets now a b).reassembly_buffer = st.reassembly_buffer :=
  foldl_ack_step_preserves now a b (List.range 32) st

/-- The remaining dispatch capacity of sequence s in a sent buffer: one
while it holds a not-yet-acked entry for s, else zero. -/
def ackCap (sb : SequenceBuffer SentPacket) (s : Nat) : Nat :=
  match sb.get s with
  | some sp => if sp.ack then 0 else 1
  | none => 0

theorem ackCap_le_one (sb : SequenceBuffer SentPacket) (s : Nat) : ackCap sb s ≤ 1 := by
  unfold ackCap
  split
  · split
    · exact Nat.zero_le 1
    · exact le_refl 1
  · exact Nat.zero_le 1

theorem ack_step_count_le (now : Int) (a b : Nat) (st : RemoteConnection) (i : Nat)
    (s : Nat) (hs : s < 65536) :
    (ack_step now a b st i).acks.count s + ackCap (ack_step now a b st i).sent_buffer s ≤
      st.acks.count s + ackCap st.sent_buffer s := by
  unfold ack_step
  dsimp only
  split
  · split
    next => exact le_refl _
    next sp hg =>
      split
      next => exact le_refl _
      next hack =>
        dsimp only
        rw [List.count_append]
        have hsqlt : (a % 65536 + 65536 - i % 65536) % 65536 < 65536 :=
          Nat.mod_lt _ (by norm_num)
        by_cases hss : (a % 65536 + 65536 - i % 65536) % 65536 = s
        · have hcap0 : ackCap
              (st.sent_buffer.modify ((a % 65536 + 65536 - i % 65536) % 65536)
                (fun p => { p with ack := true })) s = 0 := by
            unfold ackCap
            rw [hss] at hg ⊢
            rw [SequenceBuffer.get_modify_self st.sent_buffer s _ sp hg]
            simp
          rw [hcap0]
          have hcap1 : ackCap st.sent_buffer s = 1 := by
            unfold ackCap
            rw [hss] at hg
            rw [hg]
            simp [hack]
          rw [hcap1]
          have hcnt : ([(a % 65536 + 65536 - i % 65536) % 65536].count s) = 1 := by
            rw [hss]
            simp
          rw [hcnt]
        · have hcap : ackCap
              (st.sent_buffer.modify ((a % 65536 + 65536 - i % 65536) % 65536)
                (fun p => { p with ack := true })) s = ackCap st.sent_buffer s := by
            unfold ackCap
            rw [SequenceBuffer.get_modify_ne st.sent_buffer _ s _
              (by rw [Nat.mod_eq_of_lt hsqlt, Nat.mod_eq_of_lt hs]; exact hss)]
          rw [hcap]
          have hcnt : ([(a % 65536 + 65536 - i % 65536) % 65536].count s) = 0 :=
            List.count_eq_zero_of_not_mem (by
              intro hm
              exact hss (List.mem_singleton.mp hm).symm)
          rw [hcnt]
          omega
  · exact le_refl _

theorem foldl_ack_step_count_le (now : Int) (a b : Nat) (s : Nat) (hs : s < 65536)
    (l : List Nat) :
    ∀ st : RemoteConnection,
      (l.foldl (ack_step now a b) st).acks.count s +
          ackCap (l.foldl (ack_step now a b) st).sent_buffer s ≤
        st.acks.count s + ackCap st.sent_buffer s := by
  induction l with
  | nil => intro st; exact le_refl _
  | cons i l ih =>
    intro st
    simp only [List.foldl_cons]
    exact (ih (ack_step now a b st i)).trans (ack_step_count_le now a b st i s hs)

theorem update_acket_packets_count_le (st : RemoteConnection) (now : Int) (a b : Nat)
    (s : Nat) (hs : s < 65536) :
    (st.update_acket_packets now a b).acks.count s +
        ackCap (st.update_acket_packets now a b).sent_buffer s ≤
      st.acks.count s + ackCap st.sent_buffer s :=
  foldl_ack_step_count_le now a b s hs (List.range 32) st

theorem process_packet_preserves (st : RemoteConnection) (now : Int) (payload : List Nat)
    (pkt : Packet) :
    (st.process_packet now payload pkt).1.timeout_timer = st.timeout_timer ∧
    (st.process_packet now payload pkt).1.heartbeat_timer = st.heartbeat_timer ∧
    (st.process_packet now payload pkt).1.channels = st.channels ∧
    (st.process_packet now payload pkt).1.config = st.config ∧
    (st.process_packet now payload pkt).1.sequence = st.sequence := by
  cases pkt with
  | normal n =>
    have h := update_acket_packets_preserves
      { st with received_buffer :=
          st.received_buffer.insert n.sequence (ReceivedPacket.new now n.payload.length) }
      now n.ack_data.ack n.ack_data.ack_bits
    exact ⟨h.2.1, h.2.2.1, h.2.2.2.1, h.2.2.2.2.1, h.2.2.2.2.2.1⟩
  | heartbeat hb =>
    have h := update_acket_packets_preserves st now hb.ack_data.ack hb.ack_data.ack_bits
    exact ⟨h.2.1, h.2.2.1, h.2.2.2.1, h.2.2.2.2.1, h.2.2.2.2.2.1⟩
  | connection c =>
    rcases c with ⟨err⟩
    cases err with
    | none => exact ⟨rfl, rfl, rfl, rfl, rfl⟩
    | some e => exact ⟨rfl, rfl, rfl, rfl, rfl⟩
  | fragment f =>
    have h := update_acket_packets_preserves
      { st with received_buffer :=
          if (st.received_buffer.get f.sequence).isSome then
            (st.received_buffer.modify f.sequence
              (fun r => { r with size_bytes := r.size_bytes + payload.length }))
          else
            st.received_buffer.insert f.sequence (ReceivedPacket.new now payload.length) }
      now f.ack_data.ack f.ack_data.ack_bits
    unfold process_packet
    dsimp only
    split
    · exact ⟨h.2.1, h.2.2.1, h.2.2.2.1, h.2.2.2.2.1, h.2.2.2.2.2.1⟩
    · exact ⟨h.2.1, h.2.2.1, h.2.2.2.1, h.2.2.2.2.1, h.2.2.2.2.2.1⟩

theorem drain_acks_fields (st : RemoteConnection) :
    (st.drain_acks).1.acks = [] ∧ (st.drain_acks).1.sent_buffer = st.sent_buffer ∧
      (st.drain_acks).2 = st.acks :=
  ⟨rfl, rfl, rfl⟩

theorem foldl_ack_run_count_le (now : Int) (s : Nat) (hs : s < 65536) (ads : List AckData) :
    ∀ (st : RemoteConnection) (disp : List Nat), st.acks = [] →
      (ads.foldl (ack_run_step now) (st, disp)).2.count s +
          ackCap (ads.foldl (ack_run_step now) (st, disp)).1.sent_buffer s ≤
        disp.count s + ackCap st.sent_buffer s := by
  induction ads with
  | nil => intro st disp _; exact le_refl _
  | cons ad ads ih =>
    intro st disp hacks
    simp only [List.foldl_cons]
    have hstep : ack_run_step now (st, disp) ad =
        ((st.update_acket_packets now ad.ack ad.ack_bits).drain_acks.1,
          disp ++ (st.update_acket_packets now ad.ack ad.ack_bits).acks) := rfl
    rw [hstep]
    have htail := ih (st.update_acket_packets now ad.ack ad.ack_bits).drain_acks.1
      (disp ++ (st.update_acket_packets now ad.ack ad.ack_bits).acks) rfl
    refine htail.trans ?_
    rw [List.count_append]
    have hdrainsb : (st.update_acket_packets now ad.ack ad.ack_bits).drain_acks.1.sent_buffer =
        (st.update_acket_packets now ad.ack ad.ack_bits).sent_buffer := rfl
    rw [hdrainsb]
    have hupd := update_acket_packets_count_le st now ad.ack ad.ack_bits s hs
    rw [hacks] at hupd
    simp only [List.count_nil] at hupd
    omega

theorem handle_fragment_error_kind (rb : SequenceBuffer ReassemblyFragment) (f : Fragment)
    (fcfg : FragmentConfig) (e : RenetError)
    (h : handle_fragment rb f fcfg = .error e) : e = .FragmentError := by
  unfold handle_fragment at h
  dsimp only at h
  repeat' split at h
  all_goals first
    | (injection h with h; exact h.symm)
    | exact Except.noConfusion h

theorem finish_payload_fields (codec : Codec) (st : RemoteConnection)
    (pay : Option (List Nat)) :
    (finish_payload codec st pay).1.acks = [] ∧
    (finish_payload codec st pay).1.received_buffer = st.received_buffer ∧
    (finish_payload codec st pay).1.timeout_timer = st.timeout_timer ∧
    (finish_payload codec st pay).1.heartbeat_timer = st.heartbeat_timer ∧
    (finish_payload codec st pay).1.sent_buffer = st.sent_buffer ∧
    (finish_payload codec st pay).1.sequence = st.sequence ∧
    (finish_payload codec st pay).1.config = st.config := by
  unfold finish_payload
  cases pay with
  | none => exact ⟨rfl, rfl, rfl, rfl, rfl, rfl, rfl⟩
  | some p =>
    dsimp only
    split
    · exact ⟨rfl, rfl, rfl, rfl, rfl, rfl, rfl⟩
    · exact ⟨rfl, rfl, rfl, rfl, rfl, rfl, rfl⟩

theorem process_packet_fragment_received (st : RemoteConnection) (now : Int)
    (u : List Nat) (f : Fragment) (r : ReceivedPacket)
    (h3 : st.received_buffer.get f.sequence = some r) :
    ((st.process_packet now u (.fragment f)).1.received_buffer).get f.sequence =
      some { r with size_bytes := r.size_bytes + u.length } := by
  unfold process_packet
  dsimp only
  rw [if_pos (by rw [h3]; rfl)]
  split
  next e heq =>
    rw [(update_acket_packets_preserves _ now f.ack_data.ack f.ack_data.ack_bits).1]
    exact SequenceBuffer.get_modify_self _ _ _ r h3
  next rb pay heq =>
    rw [(update_acket_packets_preserves _ now f.ack_data.ack f.ack_data.ack_bits).1]
    exact SequenceBuffer.get_modify_self _ _ _ r h3

theorem sent_sample_step_fst (st : RemoteConnection) (base : Nat)
    (acc : Nat × Nat × Int × Int) (i : Nat) :
    (sent_sample_step st base acc i).1 =
      acc.1 + (if sent_dropped_pred st base i then 1 else 0) := by
  unfold sent_sample_step sent_dropped_pred
  rcases hg : st.sent_buffer.get ((base + i % 65536) % 65536) with _ | sp
  · simp only [hg]
    simp
  · simp only [hg]
    by_cases hz : sp.size_bytes = 0
    · simp [hz]
    · by_cases hack : sp.ack
      · simp [hz, hack]
      · simp [hz, hack]

theorem foldl_sent_sample_fst (st : RemoteConnection) (base : Nat) (l : List Nat) :
    ∀ acc : Nat × Nat × Int × Int,
      (l.foldl (sent_sample_step st base) acc).1 =
        acc.1 + l.countP (sent_dropped_pred st base) := by
  induction l with
  | nil => intro acc; simp
  | cons i l ih =>
    intro acc
    simp only [List.foldl_cons, List.countP_cons]
    rw [ih (sent_sample_step st base acc i), sent_sample_step_fst]
    by_cases hp : sent_dropped_pred st base i
    · simp [hp]
      omega
    · simp [hp]

theorem process_packet_error_cases (st : RemoteConnection) (now : Int) (payload : List Nat)
    (pkt : Packet) (st2 : RemoteConnection) (e : RenetError)
    (h : st.process_packet now payload pkt = (st2, .error e)) :
    e = .FragmentError ∨ st2.acks = st.acks := by
  cases pkt with
  | normal n =>
    have hsnd := congrArg Prod.snd h
    exact absurd hsnd (by simp [process_packet])
  | heartbeat hb =>
    have hsnd := congrArg Prod.snd h
    exact absurd hsnd (by simp [process_packet])
  | connection c =>
    rcases c with ⟨err⟩
    cases err with
    | none =>
      have hsnd := congrArg Prod.snd h
      exact absurd hsnd (by simp [process_packet])
    | some e0 =>
      have hfst := congrArg Prod.fst h
      simp only [process_packet] at hfst
      exact Or.inr (by rw [← hfst])
  | fragment f =>
    unfold process_packet at h
    dsimp only at h
    split at h
    next e0 heq =>
      have hsnd := congrArg Prod.snd h
      simp only at hsnd
      injection hsnd with hsnd
      exact Or.inl (hsnd ▸ handle_fragment_error_kind _ _ _ _ heq)
    next rb pay heq =>
      have hsnd := congrArg Prod.snd h
      exact absurd hsnd (by simp)

end RemoteConnection

theorem findChannel_updateChannel_self (chs : List (Nat × ChannelState)) (cid : Nat)
    (f : ChannelState → ChannelState) :
    findChannel (updateChannel chs cid f) cid = (findChannel chs cid).map f := by
  induction chs with
  | nil => rfl
  | cons p rest ih =>
    rcases p with ⟨i, ch⟩
    by_cases h : i = cid
    · simp [findChannel, updateChannel, h]
    · simp [findChannel, updateChannel, h, ih]

theorem foldl_process_ack_received (acks : List Nat) :
    ∀ ch : ChannelState, (acks.foldl ChannelState.process_ack ch).received = ch.received := by
  induction acks with
  | nil => intro ch; rfl
  | cons a rest ih => intro ch; simp only [List.foldl_cons]; exact ih _

theorem findChannel_drain_map (acks : List Nat) (chs : List (Nat × ChannelState)) (cid : Nat) :
    findChannel (chs.map (fun p => (p.1, acks.foldl ChannelState.process_ack p.2))) cid =
      (findChannel chs cid).map (fun c => acks.foldl ChannelState.process_ack c) := by
  induction chs with
  | nil => rfl
  | cons p rest ih =>
    rcases p with ⟨i, ch⟩
    by_cases h : i = cid
    · simp [findChannel, h]
    · simp [findChannel, h, ih]

/-!
Concrete scenario instances: states, codecs and security services used
to evaluate the operations at specific inputs.
-/

/-- The three fragments of scenario S3: a 1500-byte payload split as
512 + 512 + 476 under smallFragCfg, all sharing sequence 7. -/
def c1frag (i len : Nat) : Fragment := ⟨7, ⟨0, 0⟩, i, 3, List.replicate len 0⟩

/-- The raw fragment datagrams: each is 22 bytes longer than its inner
fragment payload, the overhead the source codec (bincode with fixed
integer encoding) adds for the tag, sequence, ack data, fragment
counters and payload length prefix; the first byte discriminates. -/
def c1raw (i len : Nat) : List Nat := i :: List.replicate (len + 21) 0

/-- A codec mapping each of the three raw datagrams to its fragment
packet and treating every channel-packet payload as empty. -/
def c1codec : Codec :=
  { encodePacket := fun _ => some [0]
    decodePacket := fun raw =>
      match raw.head? with
      | some 0 => some (.fragment (c1frag 0 512))
      | some 1 => some (.fragment (c1frag 1 512))
      | some 2 => some (.fragment (c1frag 2 476))
      | _ => none
    encodeChannelPackets := fun _ => some [0]
    decodeChannelPackets := fun _ => some [] }

def c1st : RemoteConnection := RemoteConnection.new 0 0 smallCfg

/-- The three fragment datagrams of the S3 scenario processed in
order. -/
def c1run : RemoteConnection × Except RenetError Unit :=
  let r1 := RemoteConnection.process_payload c1codec idSecurity 0 c1st (c1raw 0 512)
  let r2 := RemoteConnection.process_payload c1codec idSecurity 0 r1.1 (c1raw 1 512)
  RemoteConnection.process_payload c1codec idSecurity 0 r2.1 (c1raw 2 476)

/-- A state whose received buffer already holds an entry for sequence 9
recording 534 bytes. -/
def c1wst : RemoteConnection :=
  { RemoteConnection.new 0 0 smallCfg with
    received_buffer := ⟨(List.replicate 16 none).set 9 (some (9, ⟨0, 534⟩)), 9⟩ }

/-- A codec decoding every datagram to a valid first fragment of
sequence 9. -/
def c1wcodec : Codec :=
  { encodePacket := fun _ => some [0]
    decodePacket := fun _ => some (.fragment ⟨9, ⟨0, 0⟩, 0, 3, List.replicate 512 0⟩)
    encodeChannelPackets := fun _ => some [0]
    decodeChannelPackets := fun _ => some [] }

/-- A codec decoding every datagram to a malformed fragment (id 9 of
3) that also acks sequence 5. -/
def c2codec : Codec :=
  { encodePacket := fun _ => some [0]
    decodePacket := fun _ => some (.fragment ⟨9, ⟨5, 1⟩, 9, 3, [1, 2, 3]⟩)
    encodeChannelPackets := fun _ => some [0]
    decodeChannelPackets := fun _ => some [] }

/-- A state with an un-acked sent entry for sequence 5 and no pending
acks. -/
def c2st : RemoteConnection :=
  { RemoteConnection.new 0 0 smallCfg with
    sent_buffer := ⟨(List.replicate 16 none).set 5 (some (5, ⟨0, false, 3⟩)), 5⟩ }

def c2run : RemoteConnection × Except RenetError Unit :=
  RemoteConnection.process_payload c2codec idSecurity 0 c2st [0]

/-- A security service whose unwrap always fails. -/
def c3ss : SecurityService := ⟨fun p => some p, fun _ => none⟩

def c3st : RemoteConnection := RemoteConnection.new 0 0 smallCfg

def c3run : RemoteConnection × Except RenetError Unit :=
  RemoteConnection.process_payload stubCodec c3ss 100 c3st [1]

/-- A connection about to cross the 16-bit sequence boundary. -/
def c4st : RemoteConnection := { RemoteConnection.new 0 0 smallCfg with sequence := 65530 }

def c4run : RemoteConnection × List Nat := alloc_run stubCodec 0 [1, 2, 3] 10 c4st

/-- A connection exactly at the last 16-bit sequence value. -/
def c4boundary : RemoteConnection :=
  { RemoteConnection.new 0 0 smallCfg with sequence := 65535 }

/-- A state whose only sent entry sits exactly at the sent head
(sequence 10), un-acked and of nonzero size; the sample window of the
source starts at head - 4 and stops before the head. -/
def c5st : RemoteConnection :=
  { RemoteConnection.new 0 0 smallCfg with
    sent_buffer := ⟨(List.replicate 16 none).set 10 (some (10, ⟨0, false, 5⟩)), 10⟩ }

/-- A security service whose wrap always fails. -/
def c6ss : SecurityService := ⟨fun _ => none, fun p => some p⟩

/-- A state with an un-acked sent entry for sequence 7. -/
def c7st : RemoteConnection :=
  { RemoteConnection.new 0 0 smallCfg with
    sent_buffer := ⟨(List.replicate 16 none).set 7 (some (7, ⟨0, false, 3⟩)), 7⟩ }

/-- A configuration whose maximum packet size is only 4 bytes. -/
def tinyCfg : ConnectionConfig := ⟨4, 16, 16, 1 / 20, 5, 1, smallFragCfg⟩

def c8st : RemoteConnection := RemoteConnection.new 0 0 tinyCfg

/-- A codec decoding every datagram to a Normal packet whose payload
decodes to two channel entries: one for the unregistered id 5, one for
the registered id 3. -/
def c9codec : Codec :=
  { encodePacket := fun _ => some [0]
    decodePacket := fun _ => some (.normal ⟨0, ⟨0, 0⟩, [9]⟩)
    encodeChannelPackets := fun _ => some [0]
    decodeChannelPackets := fun _ => some [⟨5, [[1]]⟩, ⟨3, [[2]]⟩] }

/-- A state with a single registered channel, id 3. -/
def c9st : RemoteConnection :=
  { RemoteConnection.new 0 0 smallCfg with channels := [(3, emptyChannel)] }

/-- A state with a single registered channel, id 3 (for the unknown-id
receive test). -/
def c10st : RemoteConnection :=
  { RemoteConnection.new 0 0 smallCfg with channels := [(3, emptyChannel)] }

/-!
The claims.
-/

set_option maxRecDepth 100000 in
/-- C1 counterexample: processing the three fragment datagrams of the
S3 scenario (inner fragment payloads of 512, 512 and 476 bytes, raw
datagrams 22 bytes longer each) leaves size_bytes at 1566, the sum of
the unwrapped datagram lengths, not 1500, the sum of the individual
fragment payload lengths, because in the Fragment arm of
process_payload the identifier payload denotes the unwrapped datagram
rather than the inner payload of the fragment. -/
theorem c1_size_bytes_not_fragment_payload_sum :
    (c1run.1.received_buffer.get 7).map (fun r => r.size_bytes) = some 1566 ∧
      (c1run.1.received_buffer.get 7).map (fun r => r.size_bytes) ≠
        some ((c1frag 0 512).payload.length + (c1frag 1 512).payload.length +
          (c1frag 2 476).payload.length) :=
  ⟨by decide, by decide⟩

/-- C1 (amended): for a fragment packet whose sequence already has a
record in the received buffer, process_payload adds the length of the
unwrapped datagram (not of the inner fragment payload) to size_bytes;
so after all fragments are processed, size_bytes is the sum of the
unwrapped fragment datagram lengths. -/
theorem c1_fragment_accumulates_unwrapped_datagram_length (codec : Codec)
    (ss : SecurityService) (now : Int) (st : RemoteConnection) (raw u : List Nat)
    (f : Fragment) (r : ReceivedPacket)
    (h1 : ss.ss_unwrap raw = some u)
    (h2 : codec.decodePacket u = some (.fragment f))
    (h3 : st.received_buffer.get f.sequence = some r) :
    (RemoteConnection.process_payload codec ss now st raw).1.received_buffer.get f.sequence =
      some { r with size_bytes := r.size_bytes + u.length } := by
  unfold RemoteConnection.process_payload
  dsimp only
  split
  next heq => exact absurd (heq.symm.trans h1) (by simp)
  next u' heq =>
    have hu : u = u' := (Option.some_injective _ (heq.symm.trans h1)).symm
    subst hu
    split
    next heq2 => exact absurd (heq2.symm.trans h2) (by simp)
    next pkt heq2 =>
      have hp : pkt = .fragment f := Option.some_injective _ (heq2.symm.trans h2)
      subst hp
      rcases hpp : ({ st with timeout_timer := st.timeout_timer.reset now
        }).process_packet now u (.fragment f) with ⟨st2, r2⟩
      have hrec : st2.received_buffer.get f.sequence =
          some { r with size_bytes := r.size_bytes + u.length } := by
        have hx := RemoteConnection.process_packet_fragment_received
          { st with timeout_timer := st.timeout_timer.reset now } now u f r h3
        rw [hpp] at hx
        exact hx
      split
      next st3 e hpp2 =>
        rw [hpp] at hpp2
        have h31 : st2 = st3 := congrArg Prod.fst hpp2
        exact h31 ▸ hrec
      next st3 pay hpp2 =>
        rw [hpp] at hpp2
        have h31 : st2 = st3 := congrArg Prod.fst hpp2
        rw [(RemoteConnection.finish_payload_fields codec st3 pay).2.1]
        exact h31 ▸ hrec

/-- C1 witness: a fragment datagram of 3 raw bytes for sequence 9,
whose record held 534 bytes, leaves 537 bytes recorded. -/
theorem c1_fragment_accumulates_unwrapped_datagram_length_witness :
    c1wcodec.decodePacket [1, 2, 3] =
        some (.fragment ⟨9, ⟨0, 0⟩, 0, 3, List.replicate 512 0⟩) ∧
      c1wst.received_buffer.get 9 = some ⟨0, 534⟩ ∧
      (RemoteConnection.process_payload c1wcodec idSecurity 0 c1wst
          [1, 2, 3]).1.received_buffer.get 9 = some ⟨0, 534 + 3⟩ :=
  ⟨rfl, by decide,
    c1_fragment_accumulates_unwrapped_datagram_length c1wcodec idSecurity 0 c1wst
      [1, 2, 3] [1, 2, 3] ⟨9, ⟨0, 0⟩, 0, 3, List.replicate 512 0⟩ ⟨0, 534⟩ rfl rfl (by decide)⟩

/-- C2 counterexample: a malformed fragment datagram that acks sent
sequence 5 makes process_payload return a fragment error after ack
processing but before the drain, leaving acks equal to the nonempty
list 5 on return, although it was empty at entry. -/
theorem c2_acks_left_pending_on_fragment_error :
    c2st.acks = [] ∧ c2run.1.acks = [5] ∧ c2run.1.acks ≠ [] ∧
      c2run.2 = .error .FragmentError :=
  ⟨rfl, by decide, by decide, rfl⟩

/-- C2 (amended): when the pending-ack list is empty at entry,
process_payload leaves it empty on return unless handle_fragment fails
(a fragment error), in which case the sequences appended by the
ack processing of that call remain pending. -/
theorem c2_acks_drained_unless_fragment_error (codec : Codec) (ss : SecurityService)
    (now : Int) (st : RemoteConnection) (raw : List Nat) (hacks : st.acks = []) :
    (RemoteConnection.process_payload codec ss now st raw).1.acks = [] ∨
      (RemoteConnection.process_payload codec ss now st raw).2 = .error .FragmentError := by
  unfold RemoteConnection.process_payload
  dsimp only
  split
  next heq => exact Or.inl hacks
  next u heq =>
    split
    next heq2 => exact Or.inl hacks
    next pkt heq2 =>
      split
      next st2 e hpp =>
        rcases RemoteConnection.process_packet_error_cases _ now u pkt st2 e hpp with
            he | hacks2
        · exact Or.inr (by rw [he])
        · exact Or.inl (by rw [hacks2]; exact hacks)
      next st2 pay hpp =>
        exact Or.inl (RemoteConnection.finish_payload_fields codec st2 pay).1

/-- C2 witness: a datagram that fails to decode leaves the pending-ack
list empty. -/
theorem c2_acks_drained_unless_fragment_error_witness :
    (RemoteConnection.new 0 0 smallCfg).acks = [] ∧
      ((RemoteConnection.process_payload stubCodec idSecurity 0
          (RemoteConnection.new 0 0 smallCfg) [1]).1.acks = [] ∨
        (RemoteConnection.process_payload stubCodec idSecurity 0
          (RemoteConnection.new 0 0 smallCfg) [1]).2 = .error .FragmentError) :=
  ⟨rfl, c2_acks_drained_unless_fragment_error stubCodec idSecurity 0
    (RemoteConnection.new 0 0 smallCfg) [1] rfl⟩

/-- C3 counterexample: a datagram whose unwrap fails still resets the
timeout timer: the deadline moves from 5 to now + duration = 105 even
though process_payload returns a security error. -/
theorem c3_timeout_reset_despite_unwrap_failure :
    c3ss.ss_unwrap [1] = none ∧ c3st.timeout_timer.deadline = 5 ∧
      c3run.1.timeout_timer.deadline = 105 ∧ c3run.2 = .error .SecurityError :=
  ⟨rfl, rfl, by decide, rfl⟩

/-- C3 (amended): process_payload resets the timeout timer
unconditionally on entry, before the security unwrap; every call, on
every input and outcome (including a failed unwrap), returns with the
timeout timer reset to the time of the call. -/
theorem c3_timeout_reset_unconditional (codec : Codec) (ss : SecurityService) (now : Int)
    (st : RemoteConnection) (raw : List Nat) :
    (RemoteConnection.process_payload codec ss now st raw).1.timeout_timer =
      st.timeout_timer.reset now := by
  unfold RemoteConnection.process_payload
  dsimp only
  split
  next heq => rfl
  next u heq =>
    split
    next heq2 => rfl
    next pkt heq2 =>
      split
      next st2 e hpp =>
        have hT := (RemoteConnection.process_packet_preserves
          { st with timeout_timer := st.timeout_timer.reset now } now u pkt).1
        rw [hpp] at hT
        exact hT
      next st2 pay hpp =>
        have hT := (RemoteConnection.process_packet_preserves
          { st with timeout_timer := st.timeout_timer.reset now } now u pkt).1
        rw [hpp] at hT
        exact (RemoteConnection.finish_payload_fields codec st2 pay).2.2.1.trans hT

/-- C4: starting from next_sequence 65530, ten generate_packets calls
allocate the sequences 65530, 65531, ..., 65535, 0, 1, 2, 3, the
counter wrapping modulo 2^16, and at the 16-bit boundary the call
still succeeds (returns the framed packet) rather than failing. -/
theorem c4_sequence_wrap :
    c4run.2 = [65530, 65531, 65532, 65533, 65534, 65535, 0, 1, 2, 3] ∧
      c4run.1.sequence = 4 ∧
      (c4boundary.generate_packets stubCodec 0 [1, 2, 3]).2 = .ok [[0]] ∧
      (c4boundary.generate_packets stubCodec 0 [1, 2, 3]).1.sequence = 0 :=
  ⟨by decide, by decide, rfl, by decide⟩

/-- C5 counterexample: in c5st the only sent entry sits exactly at the
sent head (sequence 10) and is un-acked with nonzero size; the
sampling loop of update_sent_bandwidth (window 6..9, stopping one
before the head) counts 0 dropped packets, while over the window the
claim describes (7..10, ending at and including the head) the un-acked
count is 1. -/
theorem c5_window_counterexample :
    (c5st.sent_bandwidth_sample 0).1 = 0 ∧ spec_sent_packets_dropped c5st = 1 ∧
      (c5st.sent_bandwidth_sample 0).1 ≠ spec_sent_packets_dropped c5st :=
  ⟨by decide, by decide, by decide⟩

/-- C5 (amended): the sampling loop of update_sent_bandwidth counts as
dropped exactly the present entries with nonzero recorded size and
acked false over the sample_size = sent_packets_buffer_size / 4
sequences starting at head - sample_size and ending one before the
head (the head itself is outside the window); the loss sample is then
packets_dropped / sample_size * 100. -/
theorem c5_dropped_count_description (st : RemoteConnection) (now : Int) :
    (st.sent_bandwidth_sample now).1 = code_sent_packets_dropped st := by
  unfold RemoteConnection.sent_bandwidth_sample code_sent_packets_dropped
  dsimp only
  rw [RemoteConnection.foldl_sent_sample_fst]
  simp

/-- C6: with a security service whose wrap fails, send_payload on a
small payload ends in the modelled panic (the source unwraps the wrap
result), and so does the heartbeat branch of send_packets; neither
returns a security error to the caller. -/
theorem c6_wrap_failure_panics :
    (RemoteConnection.send_payload stubCodec c6ss (fun _ => true) 0
        (RemoteConnection.new 0 0 smallCfg) [1, 2, 3]).2 = .panicked ∧
      (RemoteConnection.send_packets stubCodec c6ss (fun _ => true) 5
        (RemoteConnection.new 0 0 smallCfg)).2 = .panicked :=
  ⟨by decide, by decide⟩

/-- C7: over any run of inbound ack handling (the ack data of each datagram
processed by update_acket_packets and then drained to the channels, as
process_payload does), a sequence s is dispatched to the channels at
most once, however many datagrams ack s, provided the pending list is
empty at the start: an entry already marked acked is never
re-appended. -/
theorem c7_at_most_once_ack_dispatch (now : Int) (st : RemoteConnection) (ads : List AckData)
    (s : Nat) (hs : s < 65536) (hacks : st.acks = []) :
    (process_ack_run now st ads).2.count s ≤ 1 := by
  unfold process_ack_run
  have h := RemoteConnection.foldl_ack_run_count_le now s hs ads st [] hacks
  simp only [List.count_nil] at h
  have hcap := RemoteConnection.ackCap_le_one st.sent_buffer s
  omega

/-- C7 witness: two datagrams both acking sequence 7 dispatch it only
once. -/
theorem c7_at_most_once_ack_dispatch_witness :
    (7 : Nat) < 65536 ∧ c7st.acks = [] ∧
      (process_ack_run 0 c7st [⟨7, 1⟩, ⟨7, 1⟩]).2.count 7 ≤ 1 :=
  ⟨by decide, rfl,
    c7_at_most_once_ack_dispatch 0 c7st [⟨7, 1⟩, ⟨7, 1⟩] 7 (by decide) rfl⟩

/-- C8: a payload longer than max_packet_size makes generate_packets
return MaximumPacketSizeExceeded with the connection state unchanged:
no sequence number is consumed and no SentPacket is recorded. -/
theorem c8_oversize_rejected_state_unchanged (codec : Codec) (now : Int)
    (st : RemoteConnection) (payload : List Nat)
    (h : payload.length > st.config.max_packet_size) :
    st.generate_packets codec now payload = (st, .error .MaximumPacketSizeExceeded) := by
  unfold RemoteConnection.generate_packets
  rw [if_pos h]

/-- C8 witness: a 5-byte payload against a 4-byte maximum is rejected
and the state is returned untouched. -/
theorem c8_oversize_rejected_state_unchanged_witness :
    ([1, 2, 3, 4, 5] : List Nat).length > c8st.config.max_packet_size ∧
      c8st.generate_packets stubCodec 0 [1, 2, 3, 4, 5] =
        (c8st, .error .MaximumPacketSizeExceeded) :=
  ⟨by decide, c8_oversize_rejected_state_unchanged stubCodec 0 c8st [1, 2, 3, 4, 5] (by decide)⟩

/-- C9: when the payload of a decoded Normal packet names a channel id
with no registered channel, that entry is skipped while the remaining
entries are still delivered to their channels, and process_payload
returns success rather than an error for the unknown id. -/
theorem c9_unknown_channel_skipped (codec : Codec) (ss : SecurityService) (now : Int)
    (st : RemoteConnection) (raw u : List Nat) (n : Normal) (bad good : ChannelPacketData)
    (ch : ChannelState)
    (h1 : ss.ss_unwrap raw = some u)
    (h2 : codec.decodePacket u = some (.normal n))
    (h3 : codec.decodeChannelPackets n.payload = some [bad, good])
    (h4 : findChannel st.channels bad.channel_id = none)
    (h5 : findChannel st.channels good.channel_id = some ch) :
    (RemoteConnection.process_payload codec ss now st raw).2 = .ok () ∧
      ∃ ch', findChannel (RemoteConnection.process_payload codec ss now st raw).1.channels
          good.channel_id = some ch' ∧ ch'.received = ch.received ++ good.messages := by
  unfold RemoteConnection.process_payload
  dsimp only
  split
  next heq => exact absurd (heq.symm.trans h1) (by simp)
  next u' heq =>
    have hu : u = u' := (Option.some_injective _ (heq.symm.trans h1)).symm
    subst hu
    split
    next heq2 => exact absurd (heq2.symm.trans h2) (by simp)
    next pkt heq2 =>
      have hp : pkt = .normal n := Option.some_injective _ (heq2.symm.trans h2)
      subst hp
      split
      next st2 e hpp =>
        exact absurd (congrArg Prod.snd hpp) (by simp [RemoteConnection.process_packet])
      next st2 pay hpp =>
        have hsnd := congrArg Prod.snd hpp
        simp only [RemoteConnection.process_packet] at hsnd
        injection hsnd with hpay
        subst hpay
        have hfst := congrArg Prod.fst hpp
        simp only [RemoteConnection.process_packet] at hfst
        have hchannels : st2.channels = st.channels := by
          rw [← hfst]
          exact (RemoteConnection.update_acket_packets_preserves _ now
            n.ack_data.ack n.ack_data.ack_bits).2.2.2.1
        have hD : (RemoteConnection.drain_acks st2).1.channels =
            st2.channels.map (fun p => (p.1, st2.acks.foldl ChannelState.process_ack p.2)) :=
          rfl
        have hfb : findChannel (RemoteConnection.drain_acks st2).1.channels bad.channel_id =
            none := by
          rw [hD, findChannel_drain_map, hchannels, h4]
          rfl
        have hfg : findChannel (RemoteConnection.drain_acks st2).1.channels good.channel_id =
            some (st2.acks.foldl ChannelState.process_ack ch) := by
          rw [hD, findChannel_drain_map, hchannels, h5]
          rfl
        unfold RemoteConnection.finish_payload
        dsimp only
        rw [h3]
        dsimp only
        unfold RemoteConnection.dispatch_channel_packets
        simp only [List.foldl_cons, List.foldl_nil]
        rw [hfb]
        dsimp only
        rw [hfg]
        dsimp only
        refine ⟨by trivial, (st2.acks.foldl ChannelState.process_ack ch).process_messages
          good.messages, ?_, ?_⟩
        · rw [findChannel_updateChannel_self, hfg]
          rfl
        · show ((st2.acks.foldl ChannelState.process_ack ch).process_messages
            good.messages).received = ch.received ++ good.messages
          unfold ChannelState.process_messages
          rw [foldl_process_ack_received]

/-- C9 witness: an inbound Normal datagram carrying one entry for the
unregistered id 5 and one for the registered id 3 succeeds and
delivers the id-3 messages. -/
theorem c9_unknown_channel_skipped_witness :
    c9codec.decodePacket [9] = some (.normal ⟨0, ⟨0, 0⟩, [9]⟩) ∧
      c9codec.decodeChannelPackets [9] = some [⟨5, [[1]]⟩, ⟨3, [[2]]⟩] ∧
      findChannel c9st.channels 5 = none ∧
      (RemoteConnection.process_payload c9codec idSecurity 0 c9st [9]).2 = .ok () ∧
      ∃ ch', findChannel
          (RemoteConnection.process_payload c9codec idSecurity 0 c9st [9]).1.channels 3 =
            some ch' ∧ ch'.received = emptyChannel.received ++ [[2]] := by
  have h := c9_unknown_channel_skipped c9codec idSecurity 0 c9st [9] [9]
    ⟨0, ⟨0, 0⟩, [9]⟩ ⟨5, [[1]]⟩ ⟨3, [[2]]⟩ emptyChannel rfl rfl rfl rfl rfl
  exact ⟨rfl, rfl, rfl, h.1, h.2⟩

/-- C10: receive_message on a channel id with no registered channel
returns none and leaves the connection state unchanged, while
send_message on an unknown id is the modelled panic (the source uses
expect, a fatal programmer error). -/
theorem c10_receive_message_unknown_channel (st : RemoteConnection) (cid : Nat)
    (msg : List Nat) (h : findChannel st.channels cid = none) :
    st.receive_message cid = (none, st) ∧ st.send_message cid msg = none := by
  unfold RemoteConnection.receive_message RemoteConnection.send_message
  rw [h]
  exact ⟨rfl, rfl⟩

/-- C10 witness: with only channel 3 registered, receiving from
channel 9 yields none with the state untouched, and sending to
channel 9 is the modelled panic. -/
theorem c10_receive_message_unknown_channel_witness :
    findChannel c10st.channels 9 = none ∧
      c10st.receive_message 9 = (none, c10st) ∧ c10st.send_message 9 [1] = none := by
  have h := c10_receive_message_unknown_channel c10st 9 [1] rfl
  exact ⟨rfl, h.1, h.2⟩

end Renet
